import Mathlib

/-!
Verification of `generate_icons.py`: a script that renders a square clock-face
icon (white disk, two hands, center dot on a purple background) at a fixed
table of Android density sizes and writes each rendered canvas to two files.

The renderer `create_simple_timer_icon` is embedded as a pure function from
the canvas size to a canvas (a pixel function together with its dimensions),
via a trace of the drawing operations the source issues, interpreted in
painter's order (a later operation overwrites an earlier one wherever it
covers a pixel).

The script draws through PIL's `ImageDraw` primitives, which are external to
the repository; their pixel semantics (filled disk for a circular bounding
box, axis-aligned thick line, and the rounding of float coordinates) are
modelled from the spec's description of the drawing steps.
-/

/-- An RGBA color value, one byte per channel. -/
structure RGBA where
  r : Nat
  g : Nat
  b : Nat
  a : Nat
deriving DecidableEq, Repr

/-- `purple_color = (166, 77, 255)`, the app's primary purple; drawing on an
RGBA image extends an RGB ink with alpha 255. -/
def purple_color : RGBA := ⟨166, 77, 255, 255⟩

/-- `white_color = (255, 255, 255)`, extended with alpha 255 as above. -/
def white_color : RGBA := ⟨255, 255, 255, 255⟩

/-- One drawing operation issued on the `ImageDraw` object: a filled ellipse
given by its bounding box, or a line of a given width between two points. -/
inductive DrawOp where
  | ellipse (left top right bottom : Int) (fill : RGBA)
  | line (x0 y0 x1 y1 : Int) (fill : RGBA) (width : Nat)
deriving DecidableEq, Repr

/-- The fill color of a drawing operation. -/
def DrawOp.fill : DrawOp → RGBA
  | .ellipse _ _ _ _ f => f
  | .line _ _ _ _ f _ => f

/-- Modelled from the spec: whether an operation covers pixel `(x, y)`.
The spec describes the ellipse calls as filled disks ("a solid white disk",
"a filled disk of radius dotRadius"); the program only ever passes square
bounding boxes `[c - r, c - r, c + r, c + r]`, so the covered pixels are
those at squared distance at most `r²` from the center `(c, c)` (written
below with coordinates doubled to stay in integers for odd boxes). A line
of width `w` covers an axis-aligned band of `w` pixels around its segment;
the program only draws axis-aligned lines. -/
def DrawOp.covers : DrawOp → Int → Int → Bool
  | .ellipse left top right bottom _, x, y =>
      decide ((2 * x - (left + right)) ^ 2 + (2 * y - (top + bottom)) ^ 2 ≤
        (right - left) * (bottom - top))
  | .line x0 y0 x1 y1 _ w, x, y =>
      let half : Int := (w : Int) / 2
      if x0 = x1 then
        decide (x0 - half ≤ x ∧ x ≤ x0 - half + (w : Int) - 1 ∧
          min y0 y1 ≤ y ∧ y ≤ max y0 y1)
      else if y0 = y1 then
        decide (y0 - half ≤ y ∧ y ≤ y0 - half + (w : Int) - 1 ∧
          min x0 x1 ≤ x ∧ x ≤ max x0 x1)
      else
        false

/-- A square raster canvas: its dimensions and a total pixel function. -/
structure Canvas where
  width : Nat
  height : Nat
  pix : Int → Int → RGBA

/-- Interpret a list of drawing operations over a background color in
painter's order: the last operation covering `(x, y)` decides its color. -/
def drawOps (bg : RGBA) (ops : List DrawOp) (x y : Int) : RGBA :=
  ops.foldl (fun c op => if op.covers x y then op.fill else c) bg

/-- `center = size // 2`. -/
def center (size : Nat) : Nat := size / 2

/-- `clock_radius = int(size * 0.3)`, with exact arithmetic `⌊3·size/10⌋`. -/
def clock_radius (size : Nat) : Nat := 3 * size / 10

/-- `hand_width = max(2, size // 24)`. -/
def hand_width (size : Nat) : Nat := max 2 (size / 24)

/-- `dot_radius = max(2, size // 16)`. -/
def dot_radius (size : Nat) : Nat := max 2 (size / 16)

/-- `hour_length = clock_radius * 0.5`, kept exact as a rational. -/
def hour_length (size : Nat) : ℚ := (clock_radius size : ℚ) * (1 / 2)

/-- `minute_length = clock_radius * 0.7`, kept exact as a rational. -/
def minute_length (size : Nat) : ℚ := (clock_radius size : ℚ) * (7 / 10)

/-- Modelled from the spec: the conversion of a fractional hand length to a
pixel coordinate rounds it ("to (center, center - round(clockRadius * 0.5))");
round half away from the segment start, i.e. half up. -/
def roundCoord (q : ℚ) : Int := ⌊q + 1 / 2⌋

/-- `round(clock_radius * 0.5)` computed in integers: `(clock_radius + 1) / 2`.
`roundCoord_hour_length` proves it equal to `roundCoord (hour_length size)`. -/
def hour_end (size : Nat) : Nat := (clock_radius size + 1) / 2

/-- `round(clock_radius * 0.7)` computed in integers: `(7·clock_radius + 5) / 10`.
`roundCoord_minute_length` proves it equal to `roundCoord (minute_length size)`. -/
def minute_end (size : Nat) : Nat := (7 * clock_radius size + 5) / 10

/-- The trace of drawing operations issued by `create_simple_timer_icon`,
in source order: white clock disk, hour hand (up), minute hand (right),
center dot. -/
def icon_ops (size : Nat) : List DrawOp :=
  let c : Int := center size
  let cr : Int := clock_radius size
  let dr : Int := dot_radius size
  [ .ellipse (c - cr) (c - cr) (c + cr) (c + cr) white_color,
    .line c c c (c - hour_end size) purple_color (hand_width size),
    .line c c (c + minute_end size) c purple_color (hand_width size),
    .ellipse (c - dr) (c - dr) (c + dr) (c + dr) purple_color ]

/-- `create_simple_timer_icon(size)`: a `size × size` RGBA canvas filled with
the purple background (alpha 255), with the clock drawn on top. -/
def create_simple_timer_icon (size : Nat) : Canvas :=
  { width := size
    height := size
    pix := fun x y => drawOps purple_color (icon_ops size) x y }

/-- The integer hour-hand offset agrees with the spec's rounding of
`clock_radius * 0.5`. -/
theorem roundCoord_hour_length (size : Nat) :
    roundCoord (hour_length size) = (hour_end size : Int) := by
  unfold roundCoord hour_length hour_end
  have h : (clock_radius size : ℚ) * (1 / 2) + 1 / 2 =
      ((clock_radius size + 1 : ℕ) : ℚ) / ((2 : ℕ) : ℚ) := by
    push_cast
    ring
  rw [h, Rat.floor_natCast_div_natCast]
  omega

/-- The integer minute-hand offset agrees with the spec's rounding of
`clock_radius * 0.7`. -/
theorem roundCoord_minute_length (size : Nat) :
    roundCoord (minute_length size) = (minute_end size : Int) := by
  unfold roundCoord minute_length minute_end
  have h : (clock_radius size : ℚ) * (7 / 10) + 1 / 2 =
      ((7 * clock_radius size + 5 : ℕ) : ℚ) / ((10 : ℕ) : ℚ) := by
    push_cast
    ring
  rw [h, Rat.floor_natCast_div_natCast]
  omega

/-- The density table: `sizes = {mdpi: 48, hdpi: 72, xhdpi: 96, xxhdpi: 144,
xxxhdpi: 192}`, iterated in insertion order. -/
def sizes : List (String × Nat) :=
  [("mdpi", 48), ("hdpi", 72), ("xhdpi", 96), ("xxhdpi", 144), ("xxxhdpi", 192)]

/-- `base_dir`, the output root hard-coded in the script. -/
def base_dir : String :=
  "/Users/surajiyer/Development/personal/buzztimer/app/src/main/res"

/-- `os.path.join(base_dir, "mipmap-" + density)`. -/
def mipmap_dir (density : String) : String :=
  base_dir ++ "/mipmap-" ++ density

/-- The files written by the module-level loop, in order: for each density the
icon is rendered once and that same canvas is saved to both the plain and the
round path. -/
def generated_files : List (String × Canvas) :=
  (sizes.map (fun ds =>
    let icon := create_simple_timer_icon ds.2
    [ (mipmap_dir ds.1 ++ "/ic_launcher.png", icon),
      (mipmap_dir ds.1 ++ "/ic_launcher_round.png", icon) ])).flatten

/-- Every pixel of the rendered icon is the purple background color or white:
each drawing operation fills with one of the two constants, and the background
is purple. -/
theorem pix_purple_or_white (size : Nat) (x y : Int) :
    (create_simple_timer_icon size).pix x y = purple_color ∨
      (create_simple_timer_icon size).pix x y = white_color := by
  dsimp only [create_simple_timer_icon, drawOps, icon_ops, List.foldl, DrawOp.fill]
  split
  · exact Or.inl rfl
  split
  · exact Or.inl rfl
  split
  · exact Or.inl rfl
  split
  · exact Or.inr rfl
  · exact Or.inl rfl

/-- A pixel can be white only where the white clock disk covers it: every
later operation fills purple, as does the background. -/
theorem pix_white_disk (size : Nat) (x y : Int)
    (h : (create_simple_timer_icon size).pix x y = white_color) :
    (2 * x - 2 * (center size : Int)) ^ 2 + (2 * y - 2 * (center size : Int)) ^ 2 ≤
      (2 * (clock_radius size : Int)) ^ 2 := by
  dsimp only [create_simple_timer_icon, drawOps, icon_ops, List.foldl, DrawOp.fill] at h
  split at h
  · exact absurd h (by decide)
  split at h
  · exact absurd h (by decide)
  split at h
  · exact absurd h (by decide)
  split at h
  · rename_i hcov
    simp only [DrawOp.covers, decide_eq_true_eq] at hcov
    nlinarith [hcov]
  · exact absurd h (by decide)

/-- A pixel the white disk does not reach is purple. -/
theorem pix_purple_of_far (size : Nat) (x y : Int)
    (h : ¬ ((2 * x - 2 * (center size : Int)) ^ 2 +
        (2 * y - 2 * (center size : Int)) ^ 2 ≤
        (2 * (clock_radius size : Int)) ^ 2)) :
    (create_simple_timer_icon size).pix x y = purple_color := by
  rcases pix_purple_or_white size x y with h1 | h1
  · exact h1
  · exact absurd (pix_white_disk size x y h1) h

/-- The disk fits strictly left of and above the center at sizes at least 2:
`clock_radius + 1 ≤ center`. -/
theorem clock_radius_lt_center (size : Nat) (h : 2 ≤ size) :
    clock_radius size + 1 ≤ center size := by
  unfold clock_radius center
  omega

/-- C1: for every positive `size`, `create_simple_timer_icon size` is a square
canvas of exactly `size × size` pixels in which every pixel is fully opaque
(alpha = 255). -/
theorem icon_square_and_opaque (size : Nat) (h : 0 < size) :
    (create_simple_timer_icon size).width = size ∧
      (create_simple_timer_icon size).height = size ∧
      ∀ x y : Int, ((create_simple_timer_icon size).pix x y).a = 255 := by
  refine ⟨rfl, rfl, fun x y => ?_⟩
  rcases pix_purple_or_white size x y with h1 | h1 <;> rw [h1] <;> rfl

/-- Witness for C1 at `size = 96`. -/
theorem icon_square_and_opaque_witness :
    0 < 96 ∧
      ((create_simple_timer_icon 96).width = 96 ∧
        (create_simple_timer_icon 96).height = 96 ∧
        ∀ x y : Int, ((create_simple_timer_icon 96).pix x y).a = 255) :=
  ⟨by decide, icon_square_and_opaque 96 (by decide)⟩

/-- C2: `create_simple_timer_icon` is deterministic — two invocations with the
same `size` produce canvases of equal dimensions and pixel-identical content
(the embedding is a pure function of `size` alone: no randomness, no external
state). -/
theorem icon_deterministic (size : Nat) (h : 0 < size) (c1 c2 : Canvas)
    (h1 : c1 = create_simple_timer_icon size)
    (h2 : c2 = create_simple_timer_icon size) :
    c1.width = c2.width ∧ c1.height = c2.height ∧
      ∀ x y : Int, c1.pix x y = c2.pix x y := by
  subst h1
  subst h2
  exact ⟨rfl, rfl, fun _ _ => rfl⟩

/-- Witness for C2 at `size = 48`. -/
theorem icon_deterministic_witness :
    (create_simple_timer_icon 48).width = (create_simple_timer_icon 48).width ∧
      (create_simple_timer_icon 48).height = (create_simple_timer_icon 48).height ∧
      ∀ x y : Int,
        (create_simple_timer_icon 48).pix x y = (create_simple_timer_icon 48).pix x y :=
  icon_deterministic 48 (by decide) (create_simple_timer_icon 48)
    (create_simple_timer_icon 48) rfl rfl

/-- C3: the renderer draws the hour hand as a line of width `hand_width` from
`(center, center)` to `(center, center - round(clock_radius * 0.5))` and the
minute hand as a line of the same width from `(center, center)` to
`(center + round(clock_radius * 0.7), center)`, both in the primary accent
color. -/
theorem icon_hand_lines (size : Nat) (h : 0 < size) :
    (icon_ops size).get? 1 =
      some (.line (center size) (center size) (center size)
        ((center size : Int) - roundCoord (hour_length size))
        purple_color (hand_width size)) ∧
    (icon_ops size).get? 2 =
      some (.line (center size) (center size)
        ((center size : Int) + roundCoord (minute_length size)) (center size)
        purple_color (hand_width size)) := by
  rw [roundCoord_hour_length, roundCoord_minute_length]
  exact ⟨rfl, rfl⟩

/-- Witness for C3 at `size = 96`. -/
theorem icon_hand_lines_witness :
    (icon_ops 96).get? 1 =
      some (.line (center 96) (center 96) (center 96)
        ((center 96 : Int) - roundCoord (hour_length 96))
        purple_color (hand_width 96)) ∧
    (icon_ops 96).get? 2 =
      some (.line (center 96) (center 96)
        ((center 96 : Int) + roundCoord (minute_length 96)) (center 96)
        purple_color (hand_width 96)) :=
  icon_hand_lines 96 (by decide)

/-- C4: at `size = 96` the derived quantities are `center = 48`,
`clock_radius = 28`, `hand_width = 4`, `dot_radius = 6`, and the pivot pixel
`(48, 48)` is the primary accent color (the center dot is drawn last). -/
theorem icon96_derived_and_pivot :
    center 96 = 48 ∧ clock_radius 96 = 28 ∧ hand_width 96 = 4 ∧
      dot_radius 96 = 6 ∧
      (create_simple_timer_icon 96).pix 48 48 = purple_color := by
  decide

/-- C5: at `size = 96` the pixel `(48, 30)` is white: it lies strictly inside
the white disk, the hour hand ends at `y = 34` above it, and it is outside
both the minute-hand band and the center dot. -/
theorem icon96_interior_white :
    (create_simple_timer_icon 96).pix 48 30 = white_color ∧
      (center 96 : Int) - roundCoord (hour_length 96) = 34 := by
  constructor
  · decide
  · rw [roundCoord_hour_length]
    decide

/-- C6: for every positive `size` the corner pixel `(0, 0)` is the primary
accent color: the white disk never reaches the corner (at `size = 1` the disk
degenerates to the corner pixel but the dot and hands, all purple, cover it).
-/
theorem icon_corner_purple (size : Nat) (h : 0 < size) :
    (create_simple_timer_icon size).pix 0 0 = purple_color := by
  rcases Nat.lt_or_ge size 2 with hs | hs
  · interval_cases size
    decide
  · apply pix_purple_of_far
    intro hcov
    have hc : (clock_radius size : Int) + 1 ≤ (center size : Int) := by
      exact_mod_cast clock_radius_lt_center size hs
    have h0 : (0 : Int) ≤ (clock_radius size : Int) := Int.ofNat_nonneg _
    nlinarith [hcov, hc, h0]

/-- Witness for C6 at `size = 7`. -/
theorem icon_corner_purple_witness :
    0 < 7 ∧ (create_simple_timer_icon 7).pix 0 0 = purple_color :=
  ⟨by decide, icon_corner_purple 7 (by decide)⟩

/-- C7: the renderer is total for every positive `size` (it always returns a
canvas), and at `size = 1` the floors give `clock_radius = 0`,
`hand_width = 2`, `dot_radius = 2` while a canvas is still produced. -/
theorem icon_total_and_size_one :
    (∀ size : Nat, 0 < size →
        (create_simple_timer_icon size).width = size ∧
        (create_simple_timer_icon size).height = size) ∧
      clock_radius 1 = 0 ∧ hand_width 1 = 2 ∧ dot_radius 1 = 2 ∧
      (create_simple_timer_icon 1).width = 1 ∧
      (create_simple_timer_icon 1).height = 1 ∧
      (create_simple_timer_icon 1).pix 0 0 = purple_color :=
  ⟨fun _ _ => ⟨rfl, rfl⟩, rfl, rfl, rfl, rfl, rfl, by decide⟩

/-- C9: every pixel of the rendered canvas is one of exactly two colors, the
primary accent purple or white. -/
theorem icon_two_colors (size : Nat) (h : 0 < size) (x y : Int) :
    (create_simple_timer_icon size).pix x y = purple_color ∨
      (create_simple_timer_icon size).pix x y = white_color :=
  pix_purple_or_white size x y

/-- Witness for C9 at `size = 96`, pixel `(7, 7)`. -/
theorem icon_two_colors_witness :
    0 < 96 ∧
      ((create_simple_timer_icon 96).pix 7 7 = purple_color ∨
        (create_simple_timer_icon 96).pix 7 7 = white_color) :=
  ⟨by decide, icon_two_colors 96 (by decide) 7 7⟩

/-- C8: a full run iterates exactly the fixed density table and writes exactly
10 icon files, two per density (`ic_launcher` and `ic_launcher_round`), and
for each density both saved variants are the identical rendered canvas of that
density's size. -/
theorem run_produces_ten_files :
    sizes = [("mdpi", 48), ("hdpi", 72), ("xhdpi", 96), ("xxhdpi", 144),
      ("xxxhdpi", 192)] ∧
    generated_files.length = 10 ∧
    generated_files.map Prod.fst =
      [ base_dir ++ "/mipmap-mdpi/ic_launcher.png",
        base_dir ++ "/mipmap-mdpi/ic_launcher_round.png",
        base_dir ++ "/mipmap-hdpi/ic_launcher.png",
        base_dir ++ "/mipmap-hdpi/ic_launcher_round.png",
        base_dir ++ "/mipmap-xhdpi/ic_launcher.png",
        base_dir ++ "/mipmap-xhdpi/ic_launcher_round.png",
        base_dir ++ "/mipmap-xxhdpi/ic_launcher.png",
        base_dir ++ "/mipmap-xxhdpi/ic_launcher_round.png",
        base_dir ++ "/mipmap-xxxhdpi/ic_launcher.png",
        base_dir ++ "/mipmap-xxxhdpi/ic_launcher_round.png" ] ∧
    generated_files.map Prod.snd =
      [ create_simple_timer_icon 48, create_simple_timer_icon 48,
        create_simple_timer_icon 72, create_simple_timer_icon 72,
        create_simple_timer_icon 96, create_simple_timer_icon 96,
        create_simple_timer_icon 144, create_simple_timer_icon 144,
        create_simple_timer_icon 192, create_simple_timer_icon 192 ] ∧
    generated_files.map (fun f => ((f.2).width, (f.2).height)) =
      [ (48, 48), (48, 48), (72, 72), (72, 72), (96, 96), (96, 96),
        (144, 144), (144, 144), (192, 192), (192, 192) ] :=
  ⟨rfl, rfl, rfl, rfl, rfl⟩

/-- For sizes at least 5 the disk stays two pixels clear of the right and
bottom edges: `center + clock_radius + 2 ≤ size`. -/
theorem center_add_radius_add_two_le (size : Nat) (h : 5 ≤ size) :
    center size + clock_radius size + 2 ≤ size := by
  unfold center clock_radius
  rcases Nat.lt_or_ge size 10 with h10 | h10
  · interval_cases size <;> decide
  · have h1 : 2 * (size / 2) ≤ size := by omega
    have h2 : 10 * (3 * size / 10) ≤ 3 * size := by omega
    linarith

/-- C10: for every positive `size` the white clock disk fits entirely inside
the canvas (`clock_radius ≤ center` and `center + clock_radius ≤ size - 1`),
and no pixel on the canvas border is white. -/
theorem disk_fits_and_border_not_white (size : Nat) (h : 0 < size) :
    clock_radius size ≤ center size ∧
      center size + clock_radius size ≤ size - 1 ∧
      ∀ x : Nat, x < size → ∀ y : Nat, y < size →
        (x = 0 ∨ x = size - 1 ∨ y = 0 ∨ y = size - 1) →
        (create_simple_timer_icon size).pix x y ≠ white_color := by
  refine ⟨?_, ?_, ?_⟩
  · unfold clock_radius center
    omega
  · unfold clock_radius center
    omega
  · rcases Nat.lt_or_ge size 5 with hs | hs
    · interval_cases size <;> decide
    · have h1n := clock_radius_lt_center size (le_trans (by norm_num) hs)
      have h2n := center_add_radius_add_two_le size hs
      have h1 : (clock_radius size : Int) + 1 ≤ (center size : Int) := by
        exact_mod_cast h1n
      have h2 : (center size : Int) + (clock_radius size : Int) + 2 ≤ (size : Int) := by
        exact_mod_cast h2n
      have hle : 1 ≤ size := le_trans (by norm_num) hs
      intro x hx y hy hb hwhite
      have hcov := pix_white_disk size (x : Int) (y : Int) hwhite
      have h0 : (0 : Int) ≤ (clock_radius size : Int) := Int.ofNat_nonneg _
      rcases hb with hb | hb | hb | hb
      · subst hb
        have hq : ((clock_radius size : Int) + 1) ^ 2 ≤ (center size : Int) ^ 2 :=
          pow_le_pow_left₀ (by linarith) h1 2
        have hx0 : ((0 : Nat) : Int) = 0 := rfl
        rw [hx0] at hcov
        nlinarith [hcov, hq, h0,
          sq_nonneg (2 * (y : Int) - 2 * (center size : Int))]
      · subst hb
        have hd : (clock_radius size : Int) + 1 ≤ (size : Int) - 1 - (center size : Int) := by
          linarith
        have hq : ((clock_radius size : Int) + 1) ^ 2 ≤
            ((size : Int) - 1 - (center size : Int)) ^ 2 :=
          pow_le_pow_left₀ (by linarith) hd 2
        have hx1 : ((size - 1 : Nat) : Int) = (size : Int) - 1 := Nat.cast_sub hle
        rw [hx1] at hcov
        nlinarith [hcov, hq, h0,
          sq_nonneg (2 * (y : Int) - 2 * (center size : Int))]
      · subst hb
        have hq : ((clock_radius size : Int) + 1) ^ 2 ≤ (center size : Int) ^ 2 :=
          pow_le_pow_left₀ (by linarith) h1 2
        have hy0 : ((0 : Nat) : Int) = 0 := rfl
        rw [hy0] at hcov
        nlinarith [hcov, hq, h0,
          sq_nonneg (2 * (x : Int) - 2 * (center size : Int))]
      · subst hb
        have hd : (clock_radius size : Int) + 1 ≤ (size : Int) - 1 - (center size : Int) := by
          linarith
        have hq : ((clock_radius size : Int) + 1) ^ 2 ≤
            ((size : Int) - 1 - (center size : Int)) ^ 2 :=
          pow_le_pow_left₀ (by linarith) hd 2
        have hy1 : ((size - 1 : Nat) : Int) = (size : Int) - 1 := Nat.cast_sub hle
        rw [hy1] at hcov
        nlinarith [hcov, hq, h0,
          sq_nonneg (2 * (x : Int) - 2 * (center size : Int))]

/-- Witness for C10 at `size = 12`. -/
theorem disk_fits_and_border_not_white_witness :
    0 < 12 ∧
      (clock_radius 12 ≤ center 12 ∧
        center 12 + clock_radius 12 ≤ 12 - 1 ∧
        ∀ x : Nat, x < 12 → ∀ y : Nat, y < 12 →
          (x = 0 ∨ x = 12 - 1 ∨ y = 0 ∨ y = 12 - 1) →
          (create_simple_timer_icon 12).pix x y ≠ white_color) :=
  ⟨by decide, disk_fits_and_border_not_white 12 (by decide)⟩
